import Mathlib

/-!
Shallow embedding of `src/agentops/llms/llama_stack_client.py`
(class `LlamaStackClientProvider`).

The file models, faithfully to the Python source:
  * the synchronous stream handler `handle_stream_chunk` (lines 28-66),
    including the aliasing of `llm_event.returns` with the first chunk's
    `event` object and the in-place mutation `llm_event.returns.delta += ...`;
  * the asynchronous agent stream handler `handle_stream_agent` (lines 68-115);
  * the buffered (non-streamed) branch of `handle_response` (lines 130-140)
    together with its top-level exception handler (lines 141-151), which
    rebinds `response = pprint.pformat(response)` before `return response`;
  * the wrapping generators of `handle_response` (lines 117-129) that call a
    handler on each chunk and then yield the chunk;
  * the kwargs handling of the patched entry points (lines 159-166 and
    177-184), which pop the `session` keyword before calling the original
    function and before attaching kwargs as event params;
  * the module/class state used by `override` / `undo_override`
    (lines 12-14, 153-203): `_override_complete` and `_override_create_turn`
    write the saved originals into module-level globals (`global
    original_complete`), while `undo_override` reads the class attributes
    `self.original_complete` / `self.original_create_turn`, which are
    initialised to `None` on lines 13-14 and never assigned anywhere.

A Python attribute that a malformed fragment may lack is modelled as an
`Option` field; reading a `none` field where the source performs an attribute
access models the `AttributeError` at that line.  Missing dictionary keys
(`kwargs["model_id"]`, `metadata["model_id"]`) are modelled the same way and
stand for the `KeyError` the source would raise there.
-/

namespace LlamaStack

/-- A `{role, content}` message, as found in `kwargs["messages"]`. -/
structure Message where
  content : String
  role : String
deriving Repr, DecidableEq

/-- The `event` object of a synchronous stream chunk
(`ChatCompletionResponseStreamChunkEvent`): a text `delta` and an
`event_type` tag ( `"complete"` being the terminal sentinel tested on
line 46). -/
structure ChunkEvent where
  delta : String
  event_type : String
deriving Repr, DecidableEq

/-- A synchronous stream chunk.  `event = none` models a malformed chunk
lacking the `event` attribute: accessing it raises. -/
structure StreamChunk where
  event : Option ChunkEvent
deriving Repr, DecidableEq

/-- The call arguments consulted by the handlers: `kwargs["model_id"]`
(`none` models the key being absent, so the lookup on line 37 raises
`KeyError`) and `kwargs["messages"]`. -/
structure SyncKwargs where
  model_id : Option String
  messages : List Message
deriving Repr, DecidableEq

/-- The fields of a finalized `LLMEvent` that the claims inspect:
`model`, normalized `prompt`, and `completion` (`none` when
`llm_event.completion` was never assigned, as can happen on the agent
path). -/
structure LLMEventData where
  model : String
  prompt : List Message
  completion : Option String
deriving Repr, DecidableEq

/-- One call to `self._safe_record`: either a finalized `LLMEvent` or an
`ErrorEvent` recorded from an `except` block. -/
inductive Emission where
  | llm (e : LLMEventData)
  | error
deriving Repr, DecidableEq

/-- Normalization of `kwargs["messages"]` into the
`[{"content": ..., "role": ...}]` list built on lines 47-49, 96-98 and
134. -/
def normalizeMessages (ms : List Message) : List Message :=
  ms.map (fun m => { content := m.content, role := m.role })

/-- State of the sync handler `handle_stream_chunk` across chunks of one
logical call.  `seeded` is `llm_event.returns is not None`;
`returnsDelta` is the current value of `llm_event.returns.delta`, i.e. the
`delta` field stored in the FIRST chunk's `event` object, which
`llm_event.returns` aliases (line 32) and which line 44 mutates in place;
`completion` is `llm_event.completion`; `emitted` collects the
`_safe_record` calls so far. -/
structure SyncState where
  seeded : Bool
  returnsDelta : String
  completion : Option String
  emitted : List Emission
deriving Repr, DecidableEq

def initSyncState : SyncState :=
  { seeded := false, returnsDelta := "", completion := none, emitted := [] }

/-- The body of the `try` block of `handle_stream_chunk` (lines 34-66).
`isSeed` records whether the chunk being handled is the one whose `event`
object `llm_event.returns` aliases (the first chunk): for that chunk,
`choice.delta` on line 44 reads the already-aliased mutable delta, so the
`+=` doubles it; and the yielded chunk is observed with the mutated delta.
Returns the new state together with the chunk's `event` as the caller
observes it at yield time (`none` when the chunk has no `event`). -/
def syncTryBody (kw : SyncKwargs) (st : SyncState) (c : StreamChunk)
    (isSeed : Bool) : SyncState × Option ChunkEvent :=
  let accumulated := st.returnsDelta
  match kw.model_id, c.event with
  | some mid, some ev =>
      let choiceDelta := if isSeed then st.returnsDelta else ev.delta
      let st1 :=
        if choiceDelta ≠ "" then
          { st with returnsDelta := st.returnsDelta ++ choiceDelta }
        else st
      let finalEvent := Emission.llm
        { model := mid,
          prompt := normalizeMessages kw.messages,
          completion := some accumulated }
      let st2 :=
        if ev.event_type = "complete" then
          { st1 with
              completion := some accumulated,
              emitted := st1.emitted ++ [finalEvent] }
        else st1
      (st2, some (if isSeed then { ev with delta := st2.returnsDelta } else ev))
  | _, _ =>
      ({ st with emitted := st.emitted ++ [Emission.error] },
       match c.event with
       | some ev => some (if isSeed then { ev with delta := st.returnsDelta } else ev)
       | none => none)

/-- One call `handle_stream_chunk(chunk)` followed by `yield chunk`
(lines 119-121).  The seeding access `llm_event.returns = chunk.event` on
lines 31-32 happens OUTSIDE the `try`, so when `returns` is still `None`
and the chunk lacks `event`, the `AttributeError` propagates out of the
generator: this is the `none` result (stream aborted).  Otherwise the
chunk is handled and yielded. -/
def syncStep (kw : SyncKwargs) (st : SyncState) (c : StreamChunk) :
    Option (SyncState × Option ChunkEvent) :=
  if st.seeded then
    some (syncTryBody kw st c false)
  else
    match c.event with
    | none => none
    | some ev =>
        some (syncTryBody kw { st with seeded := true, returnsDelta := ev.delta } c true)

/-- The observable outcome of iterating a wrapped stream to exhaustion (or
to the fragment whose handling raised an uncaught exception):
the `_safe_record` calls, the chunk events as the caller observed them at
yield time, whether an exception escaped the iterator, and the final
handler state. -/
structure SyncResult where
  emissions : List Emission
  yielded : List (Option ChunkEvent)
  aborted : Bool
  final : SyncState
deriving Repr, DecidableEq

def runSyncFrom (kw : SyncKwargs) (st : SyncState) :
    List StreamChunk → SyncResult
  | [] => { emissions := st.emitted, yielded := [], aborted := false, final := st }
  | c :: cs =>
    match syncStep kw st c with
    | none =>
        { emissions := st.emitted, yielded := [], aborted := true, final := st }
    | some (st1, y) =>
        let r := runSyncFrom kw st1 cs
        { r with yielded := y :: r.yielded }

/-- Running the synchronous wrapping generator (lines 117-122) over a
whole chunk sequence. -/
def runSync (kw : SyncKwargs) (cs : List StreamChunk) : SyncResult :=
  runSyncFrom kw initSyncState cs

/-- The nested payload of an agent stream chunk
(`chunk.event.payload`). -/
structure AgentPayload where
  event_type : String
  step_type : String
  text_delta_model_response : String
deriving Repr, DecidableEq

/-- The `event` object of an agent stream chunk. -/
structure AgentEvent where
  payload : AgentPayload
deriving Repr, DecidableEq

/-- An asynchronous agent stream chunk; `event = none` models a chunk
lacking the `event` attribute. -/
structure AgentChunk where
  event : Option AgentEvent
deriving Repr, DecidableEq

/-- Python truthiness of `llm_event.completion` (line 88): `None` and the
empty string are falsy. -/
def truthy : Option String → Bool
  | none => false
  | some s => s ≠ ""

/-- State of the agent handler `handle_stream_agent`.  `llm_event.returns`
is aliased to the first chunk's event (line 73) but never written
afterwards, so only the seeding flag, the accumulated `completion` and the
record of `_safe_record` calls are observable. -/
structure AgentState where
  seeded : Bool
  completion : Option String
  emitted : List Emission
deriving Repr, DecidableEq

def initAgentState : AgentState :=
  { seeded := false, completion := none, emitted := [] }

/-- The `try` block of `handle_stream_agent` (lines 75-115).  `md` is the
`metadata` dictionary's `"model_id"` entry (`metadata.get` on line 100,
with the literal fallback).  A chunk lacking `event` raises at the
`chunk.event.payload.event_type` access on line 76, caught by the
`except` (line 106), which records an `ErrorEvent`.  Phase tags other
than the five tested ones fall through every branch and do nothing. -/
def agentTryBody (kw : SyncKwargs) (md : Option String) (st : AgentState)
    (c : AgentChunk) : AgentState :=
  match c.event with
  | none => { st with emitted := st.emitted ++ [Emission.error] }
  | some ev =>
    let p := ev.payload
    if p.event_type = "step_start" then st
    else if p.event_type = "turn_start" then st
    else if p.event_type = "step_progress" then
      if p.step_type = "inference" then
        if truthy st.completion then
          let grown := some (st.completion.getD "" ++ p.text_delta_model_response)
          { st with completion := grown }
        else
          { st with completion := some p.text_delta_model_response }
      else st
    else if p.event_type = "step_complete" then st
    else if p.event_type = "turn_complete" then
      let finalEvent := Emission.llm
        { model := md.getD "Unable to identify model",
          prompt := normalizeMessages kw.messages,
          completion := st.completion }
      { st with emitted := st.emitted ++ [finalEvent] }
    else st

/-- One call `handle_stream_agent(chunk)`.  As in the sync handler, the
seeding access `llm_event.returns = chunk.event` (lines 72-73) is outside
the `try`: a first chunk lacking `event` aborts the iterator (`none`). -/
def agentStep (kw : SyncKwargs) (md : Option String) (st : AgentState)
    (c : AgentChunk) : Option AgentState :=
  if st.seeded then
    some (agentTryBody kw md st c)
  else
    match c.event with
    | none => none
    | some _ => some (agentTryBody kw md { st with seeded := true } c)

/-- Observable outcome of iterating the wrapped async generator
(lines 123-129).  Agent chunks are never mutated by observation, so the
yielded list holds the chunks themselves. -/
structure AgentResult where
  emissions : List Emission
  yielded : List AgentChunk
  aborted : Bool
  final : AgentState
deriving Repr, DecidableEq

def runAgentFrom (kw : SyncKwargs) (md : Option String) (st : AgentState) :
    List AgentChunk → AgentResult
  | [] => { emissions := st.emitted, yielded := [], aborted := false, final := st }
  | c :: cs =>
    match agentStep kw md st c with
    | none =>
        { emissions := st.emitted, yielded := [], aborted := true, final := st }
    | some st1 =>
        let r := runAgentFrom kw md st1 cs
        { r with yielded := c :: r.yielded }

/-- Running the asynchronous wrapping generator over a whole chunk
sequence. -/
def runAgent (kw : SyncKwargs) (md : Option String) (cs : List AgentChunk) :
    AgentResult :=
  runAgentFrom kw md initAgentState cs

/-- `response.completion_message` of a buffered response. -/
structure CompletionMessage where
  content : String
deriving Repr, DecidableEq

/-- A buffered (non-streamed) chat-completion response object. -/
structure BufferedResponse where
  completion_message : CompletionMessage
deriving Repr, DecidableEq

/-- What `handle_response` returns to the caller.  On success the original
`response` object is returned (line 151).  In the top-level `except`
block, line 144 rebinds `response = pprint.pformat(response)`, so the
caller receives a pretty-printed STRING rendering of the response rather
than the original object; the `formatted` constructor models that
string. -/
inductive HandleReturn where
  | raw (r : BufferedResponse)
  | formatted (r : BufferedResponse)
deriving Repr, DecidableEq

/-- The buffered branch of `handle_response` (lines 130-140) together with
its top-level exception handler (lines 141-151).  `metadata` is the
`"model_id"` entry of the `metadata` argument; when it is absent (in
particular when `metadata` was left at its default `{}`), the lookup
`metadata["model_id"]` on line 133 raises `KeyError`, the handler records
an `ErrorEvent`, and the formatted string is returned. -/
def handleBuffered (kw : SyncKwargs) (metadata : Option String)
    (resp : BufferedResponse) : List Emission × HandleReturn :=
  match metadata with
  | none => ([Emission.error], HandleReturn.formatted resp)
  | some mid =>
      ([Emission.llm
          { model := mid,
            prompt := normalizeMessages kw.messages,
            completion := some resp.completion_message.content }],
       HandleReturn.raw resp)

/-- The patched `chat_completion` entry point (lines 159-166) on a
buffered response: `patched_function` calls
`self.handle_response(result, kwargs, init_timestamp, session=session)`
WITHOUT a `metadata` argument, so `handle_response` runs with its default
`metadata = {}` and the buffered branch's `metadata["model_id"]` lookup
has no key to find. -/
def patchedChatCompletionBuffered (kw : SyncKwargs) (resp : BufferedResponse) :
    List Emission × HandleReturn :=
  handleBuffered kw none resp

/-- Keyword-argument dictionary, modelled as a lookup function. -/
def Kwargs (α : Type) : Type := String → Option α

/-- `del kwargs["session"]` guarded by `if "session" in kwargs.keys()`
(lines 163-164 and 181-182): the resulting dictionary has no `"session"`
key and is unchanged elsewhere. -/
def stripSession {α : Type} (kwargs : Kwargs α) : Kwargs α :=
  fun k => if k = "session" then none else kwargs k

/-- What a patched entry point (lines 159-166, 177-184) does with its
keyword arguments: `sessionArg` is `kwargs.get("session", None)`;
`libKwargs` is the dictionary passed to the original library function
(`original_complete(*args, **kwargs)` after the `del`); `eventParams` is
the dictionary passed on to `handle_response` and stored as the event's
`params` (line 24). -/
structure PatchedCallKwargs (α : Type) where
  sessionArg : Option α
  libKwargs : Kwargs α
  eventParams : Kwargs α

def patchedWrapperKwargs {α : Type} (kwargs : Kwargs α) : PatchedCallKwargs α :=
  { sessionArg := kwargs "session",
    libKwargs := stripSession kwargs,
    eventParams := stripSession kwargs }

/-- The functions that can sit in the two patched slots. -/
inductive Func where
  | originalChatCompletion
  | originalCreateTurn
  | patchedChatCompletion
  | patchedCreateTurn
deriving Repr, DecidableEq

/-- Process-wide state relevant to `override` / `undo_override`:
the two library slots (`InferenceResource.chat_completion`,
`Agent.create_turn`), the provider's class attributes
`original_complete` / `original_create_turn` (lines 13-14, initialised to
`None` and never assigned), and the module-level globals of the same
names written by the `global` statements on lines 156-157 and 174-175. -/
structure ProcessState where
  chat_completion : Func
  create_turn : Func
  selfOriginalComplete : Option Func
  selfOriginalCreateTurn : Option Func
  globalOriginalComplete : Option Func
  globalOriginalCreateTurn : Option Func
deriving Repr, DecidableEq

/-- The unpatched process: both slots hold the library originals, both
saved references are `None`. -/
def initProcessState : ProcessState :=
  { chat_completion := Func.originalChatCompletion,
    create_turn := Func.originalCreateTurn,
    selfOriginalComplete := none,
    selfOriginalCreateTurn := none,
    globalOriginalComplete := none,
    globalOriginalCreateTurn := none }

/-- `_override_complete` (lines 153-169): saves the current slot into the
MODULE-LEVEL global `original_complete` and installs the patched
function. -/
def overrideComplete (s : ProcessState) : ProcessState :=
  { s with
      globalOriginalComplete := some s.chat_completion,
      chat_completion := Func.patchedChatCompletion }

/-- `_override_create_turn` (lines 171-187). -/
def overrideCreateTurn (s : ProcessState) : ProcessState :=
  { s with
      globalOriginalCreateTurn := some s.create_turn,
      create_turn := Func.patchedCreateTurn }

/-- `override` (lines 190-194). -/
def overrideAll (s : ProcessState) : ProcessState :=
  overrideCreateTurn (overrideComplete s)

/-- `undo_override` (lines 196-203): restores each slot only when the
corresponding CLASS attribute `self.original_complete` /
`self.original_create_turn` is not `None` — but those attributes are never
assigned anywhere (the saved references went to the module globals), so
each guard reads the initial `None`. -/
def undoOverride (s : ProcessState) : ProcessState :=
  let s1 :=
    match s.selfOriginalComplete with
    | some f => { s with chat_completion := f }
    | none => s
  match s1.selfOriginalCreateTurn with
  | some f => { s1 with create_turn := f }
  | none => s1

/-! Derived notions used to state the claims, plus concrete test fixtures. -/

/-- Concatenation of the `delta` fields of a chunk list, in delivery
order (a missing `event` contributes nothing). -/
def deltaConcat : List StreamChunk → String
  | [] => ""
  | c :: cs =>
    (match c.event with
     | some e => e.delta
     | none => "") ++ deltaConcat cs

/-- Whether an emission is a finalized `LLMEvent` (as opposed to an
`ErrorEvent`). -/
def isLLM : Emission → Bool
  | Emission.llm _ => true
  | Emission.error => false

/-- Whether a sync chunk carries the `"complete"` terminal sentinel. -/
def isCompleteTag (c : StreamChunk) : Bool :=
  match c.event with
  | some e => e.event_type = "complete"
  | none => false

/-- Whether an agent chunk carries the `"turn_complete"` terminal tag. -/
def isTurnCompleteTag (c : AgentChunk) : Bool :=
  match c.event with
  | some e => e.payload.event_type = "turn_complete"
  | none => false

/-- Whether an agent chunk is a `step_progress` fragment whose step type
is `inference`. -/
def isInferenceProgress (c : AgentChunk) : Bool :=
  match c.event with
  | some e => e.payload.event_type = "step_progress" && e.payload.step_type = "inference"
  | none => false

/-- Concatenation of the text deltas of the inference-progress chunks of
a list, in delivery order. -/
def inferenceConcat : List AgentChunk → String
  | [] => ""
  | c :: cs =>
    (match c.event with
     | some e =>
        if e.payload.event_type = "step_progress" ∧ e.payload.step_type = "inference"
        then e.payload.text_delta_model_response
        else ""
     | none => "") ++ inferenceConcat cs

/-- Fixture: the call arguments of the spec's scenarios
(`messages=[{role:"user", content:"hi"}]`, `model_id="m1"`). -/
def exampleKwargs : SyncKwargs :=
  { model_id := some "m1", messages := [{ content := "hi", role := "user" }] }

/-- Fixture: a well-formed non-terminal sync chunk with the given delta. -/
def chunkP (d : String) : StreamChunk :=
  { event := some { delta := d, event_type := "progress" } }

/-- Fixture: a sync chunk tagged with the `"complete"` sentinel. -/
def chunkC (d : String) : StreamChunk :=
  { event := some { delta := d, event_type := "complete" } }

/-- Fixture: a well-formed agent chunk. -/
def agentChunk (t s d : String) : AgentChunk :=
  { event := some { payload := { event_type := t, step_type := s, text_delta_model_response := d } } }

/-- Fixture: the buffered response of the spec's scenario
(completion text `"hello"`). -/
def exampleResponse : BufferedResponse :=
  { completion_message := { content := "hello" } }

/-! Per-step lemmas about the synchronous handler. -/

/-- `syncTryBody` never changes the `seeded` flag. -/
lemma syncTryBody_seeded (kw : SyncKwargs) (st : SyncState) (c : StreamChunk)
    (b : Bool) : (syncTryBody kw st c b).1.seeded = st.seeded := by
  rcases hm : kw.model_id with _ | m <;> rcases hc : c.event with _ | e <;>
    simp only [syncTryBody, hm, hc] <;> split_ifs <;> rfl

/-- A chunk handled while the record is already seeded, with `model_id`
present, a well-formed `event`, and a non-terminal tag: the delta is
appended to the aliased first-chunk delta, nothing is recorded, and the
chunk's event is yielded unchanged. -/
lemma syncStep_seeded_nonterminal (kw : SyncKwargs) (st : SyncState)
    (c : StreamChunk) (e : ChunkEvent) (m : String)
    (hm : kw.model_id = some m) (hs : st.seeded = true)
    (he : c.event = some e) (ht : ¬ e.event_type = "complete") :
    syncStep kw st c =
      some ({ st with returnsDelta := st.returnsDelta ++ e.delta }, some e) := by
  obtain ⟨sd, rd, comp, em⟩ := st
  by_cases hd : e.delta = "" <;>
    simp_all [syncStep, syncTryBody, String.append_empty]

/-- A terminal (`"complete"`-tagged) chunk handled while seeded: the
completion is finalized to the delta accumulated BEFORE this chunk's own
delta is appended, and one `LLMEvent` is recorded. -/
lemma syncStep_seeded_terminal (kw : SyncKwargs) (st : SyncState)
    (c : StreamChunk) (e : ChunkEvent) (m : String)
    (hm : kw.model_id = some m) (hs : st.seeded = true)
    (he : c.event = some e) (ht : e.event_type = "complete") :
    syncStep kw st c =
      some ({ st with
                returnsDelta := st.returnsDelta ++ e.delta,
                completion := some st.returnsDelta,
                emitted := st.emitted ++
                  [Emission.llm
                    { model := m,
                      prompt := normalizeMessages kw.messages,
                      completion := some st.returnsDelta }] },
            some e) := by
  obtain ⟨sd, rd, comp, em⟩ := st
  by_cases hd : e.delta = "" <;>
    simp_all [syncStep, syncTryBody, String.append_empty]

/-- The seeding chunk (handled while `returns` is still `None`), with a
well-formed `event` and a non-terminal tag: because `llm_event.returns`
aliases this chunk's event object, the `+=` on line 44 doubles its delta,
and the chunk is yielded with the mutated (doubled) delta. -/
lemma syncStep_seed_nonterminal (kw : SyncKwargs) (st : SyncState)
    (c : StreamChunk) (e : ChunkEvent) (m : String)
    (hm : kw.model_id = some m) (hs : st.seeded = false)
    (he : c.event = some e) (ht : ¬ e.event_type = "complete") :
    syncStep kw st c =
      some ({ st with seeded := true, returnsDelta := e.delta ++ e.delta },
            some { e with delta := e.delta ++ e.delta }) := by
  obtain ⟨sd, rd, comp, em⟩ := st
  by_cases hd : e.delta = "" <;>
    simp_all [syncStep, syncTryBody, String.append_empty]

/-- Processing a run of well-formed non-terminal chunks followed by one
terminal chunk, starting from a seeded state: exactly one `LLMEvent` is
appended, whose completion is the seeded delta followed by the
non-terminal chunks' deltas (the terminal chunk's own delta is NOT
included, since line 51 assigns the `accumulated_delta` read on line 35,
before line 44 appended the final delta). -/
lemma runSyncFrom_terminal (kw : SyncKwargs) (m : String)
    (hm : kw.model_id = some m) (ct : StreamChunk) (et : ChunkEvent)
    (hct : ct.event = some et) (hterm : et.event_type = "complete") :
    ∀ (mid : List StreamChunk) (st : SyncState), st.seeded = true →
      (∀ c ∈ mid, ∃ e, c.event = some e ∧ ¬ e.event_type = "complete") →
      (runSyncFrom kw st (mid ++ [ct])).emissions =
        st.emitted ++
          [Emission.llm
            { model := m,
              prompt := normalizeMessages kw.messages,
              completion := some (st.returnsDelta ++ deltaConcat mid) }] ∧
      (runSyncFrom kw st (mid ++ [ct])).aborted = false := by
  intro mid
  induction mid with
  | nil =>
      intro st hs _
      rw [List.nil_append]
      simp [runSyncFrom, syncStep_seeded_terminal kw st ct et m hm hs hct hterm,
        deltaConcat, String.append_empty]
  | cons c mid ih =>
      intro st hs hmid
      obtain ⟨e, he, hent⟩ := hmid c (List.mem_cons_self c mid)
      have hstep := syncStep_seeded_nonterminal kw st c e m hm hs he hent
      have ihs := ih { st with returnsDelta := st.returnsDelta ++ e.delta } hs
        (fun d hd => hmid d (List.mem_cons_of_mem c hd))
      rw [List.cons_append]
      simp only [runSyncFrom, hstep]
      constructor
      · rw [ihs.1]
        simp only [deltaConcat, he, String.append_assoc]
      · exact ihs.2

/-- C1: for a synchronous stream whose first fragment is well formed and
non-terminal and which then reaches a `"complete"`-tagged fragment, one
event is emitted; its prompt is the normalized `{content, role}` list
from the call's messages, but its completion is the FIRST fragment's
delta twice (the aliasing of `llm_event.returns` with the first chunk's
event makes line 44 double it) followed by the deltas of the intermediate
fragments — the terminal fragment's own delta is excluded.  This is the
claim amended to what `handle_stream_chunk` actually computes. -/
theorem c1_sync_stream_completion (kw : SyncKwargs) (m : String)
    (c0 : StreamChunk) (e0 : ChunkEvent) (mid : List StreamChunk)
    (ct : StreamChunk) (et : ChunkEvent)
    (hm : kw.model_id = some m)
    (h0 : c0.event = some e0) (h0t : ¬ e0.event_type = "complete")
    (hmid : ∀ c ∈ mid, ∃ e, c.event = some e ∧ ¬ e.event_type = "complete")
    (hct : ct.event = some et) (hterm : et.event_type = "complete") :
    (runSync kw (c0 :: (mid ++ [ct]))).emissions =
      [Emission.llm
        { model := m,
          prompt := normalizeMessages kw.messages,
          completion := some (e0.delta ++ e0.delta ++ deltaConcat mid) }] ∧
    (runSync kw (c0 :: (mid ++ [ct]))).aborted = false := by
  have hseed := syncStep_seed_nonterminal kw initSyncState c0 e0 m hm rfl h0 h0t
  have hrest := runSyncFrom_terminal kw m hm ct et hct hterm mid
    { initSyncState with seeded := true, returnsDelta := e0.delta ++ e0.delta } rfl hmid
  simp only [runSync, runSyncFrom, hseed]
  exact ⟨hrest.1, hrest.2⟩

/-- C1 witness: the spec's own scenario — three fragments with deltas
`"a"`, `"b"`, `"c"`, the third tagged complete — emits one event with
completion `"aab"`. -/
theorem c1_sync_stream_completion_witness :
    (runSync exampleKwargs [chunkP "a", chunkP "b", chunkC "c"]).emissions =
      [Emission.llm
        { model := "m1",
          prompt := normalizeMessages exampleKwargs.messages,
          completion := some ("a" ++ "a" ++ deltaConcat [chunkP "b"]) }] :=
  (c1_sync_stream_completion exampleKwargs "m1" (chunkP "a")
    { delta := "a", event_type := "progress" } [chunkP "b"] (chunkC "c")
    { delta := "c", event_type := "complete" } rfl rfl (by decide)
    (fun c hc => by
      simp only [List.mem_singleton] at hc
      exact ⟨{ delta := "b", event_type := "progress" }, by rw [hc]; rfl, by decide⟩)
    rfl rfl).1

/-- C1 counterexample: in the spec's scenario (deltas `"a"`, `"b"`,
`"c"`, third fragment tagged complete) the emitted completion is
`"aab"`, not the concatenation `"abc"` of the deltas in delivery
order. -/
theorem c1_counterexample :
    (runSync exampleKwargs [chunkP "a", chunkP "b", chunkC "c"]).emissions =
      [Emission.llm
        { model := "m1",
          prompt := [{ content := "hi", role := "user" }],
          completion := some "aab" }] ∧
    ¬ (some "aab" = some "abc") := by
  exact ⟨rfl, by decide⟩

/-- The seeding chunk when it itself carries the terminal tag: the
completion is its delta read before the doubling `+=`, and it is yielded
with the doubled delta. -/
lemma syncStep_seed_terminal (kw : SyncKwargs) (st : SyncState)
    (c : StreamChunk) (e : ChunkEvent) (m : String)
    (hm : kw.model_id = some m) (hs : st.seeded = false)
    (he : c.event = some e) (ht : e.event_type = "complete") :
    syncStep kw st c =
      some ({ st with
                seeded := true,
                returnsDelta := e.delta ++ e.delta,
                completion := some e.delta,
                emitted := st.emitted ++
                  [Emission.llm
                    { model := m,
                      prompt := normalizeMessages kw.messages,
                      completion := some e.delta }] },
            some { e with delta := e.delta ++ e.delta }) := by
  obtain ⟨sd, rd, comp, em⟩ := st
  by_cases hd : e.delta = "" <;>
    simp_all [syncStep, syncTryBody, String.append_empty]

/-- Once the record is seeded, handling a chunk never raises out of the
generator (`handle_stream_chunk`'s remaining accesses are inside the
`try`). -/
lemma syncStep_seeded_total (kw : SyncKwargs) (st : SyncState)
    (c : StreamChunk) (hs : st.seeded = true) :
    syncStep kw st c = some (syncTryBody kw st c false) := by
  simp [syncStep, hs]

/-- A non-seeding chunk whose `event` attribute is missing: the
`AttributeError` at line 41 is caught by the `except` on line 57, which
records exactly one `ErrorEvent`; the chunk is still yielded (with no
event to observe). -/
lemma syncTryBody_missing_event (kw : SyncKwargs) (st : SyncState)
    (c : StreamChunk) (hc : c.event = none) :
    syncTryBody kw st c false =
      ({ st with emitted := st.emitted ++ [Emission.error] }, none) := by
  rcases hm : kw.model_id with _ | m <;> simp [syncTryBody, hm, hc]

/-- After a successful seeding step, the wrapped generator never aborts:
every remaining chunk is handled (possibly recording an `ErrorEvent`) and
then yielded. -/
lemma runSyncFrom_seeded_no_abort (kw : SyncKwargs) :
    ∀ (cs : List StreamChunk) (st : SyncState), st.seeded = true →
      (runSyncFrom kw st cs).aborted = false ∧
      (runSyncFrom kw st cs).yielded.length = cs.length := by
  intro cs
  induction cs with
  | nil => intro st _; exact ⟨rfl, rfl⟩
  | cons c cs ih =>
      intro st hs
      have hstep := syncStep_seeded_total kw st c hs
      rcases hp : syncTryBody kw st c false with ⟨st1, y⟩
      have hseeded : st1.seeded = true := by
        have h2 := syncTryBody_seeded kw st c false
        rw [hp] at h2
        simpa [hs] using h2
      obtain ⟨ha, hl⟩ := ih st1 hseeded
      rw [hp] at hstep
      simp only [runSyncFrom, hstep]
      exact ⟨ha, by simp [hl]⟩

/-- Any well-formed chunk handled with `model_id` present: the step
succeeds, the state ends seeded, and the emission log grows by exactly
one `LLMEvent` when the chunk carries the terminal tag and is unchanged
otherwise. -/
lemma syncStep_emitted_wf (kw : SyncKwargs) (st : SyncState)
    (c : StreamChunk) (e : ChunkEvent) (m : String)
    (hm : kw.model_id = some m) (he : c.event = some e) :
    ∃ st1 y d, syncStep kw st c = some (st1, y) ∧ st1.seeded = true ∧
      st1.emitted = st.emitted ++
        (if e.event_type = "complete"
         then [Emission.llm
                { model := m,
                  prompt := normalizeMessages kw.messages,
                  completion := some d }]
         else []) := by
  by_cases ht : e.event_type = "complete" <;> by_cases hs : st.seeded = true
  · exact ⟨_, _, st.returnsDelta,
      syncStep_seeded_terminal kw st c e m hm hs he ht, hs, by simp [ht]⟩
  · have hs0 : st.seeded = false := by simpa using hs
    exact ⟨_, _, e.delta,
      syncStep_seed_terminal kw st c e m hm hs0 he ht, rfl, by simp [ht]⟩
  · exact ⟨_, _, "",
      syncStep_seeded_nonterminal kw st c e m hm hs he ht, hs,
      by simp [ht, String.append_empty]⟩
  · have hs0 : st.seeded = false := by simpa using hs
    exact ⟨_, _, "",
      syncStep_seed_nonterminal kw st c e m hm hs0 he ht, rfl,
      by simp [ht, String.append_empty]⟩

/-- Over a whole well-formed stream with `model_id` present: the number
of recorded `LLMEvent`s equals the number of `"complete"`-tagged chunks,
no event at all is recorded while no terminal tag arrives, and the
iterator never aborts. -/
lemma runSyncFrom_llm_count (kw : SyncKwargs) (m : String)
    (hm : kw.model_id = some m) :
    ∀ (cs : List StreamChunk) (st : SyncState),
      (∀ c ∈ cs, c.event.isSome = true) →
      (runSyncFrom kw st cs).emissions.countP isLLM =
        st.emitted.countP isLLM + List.countP isCompleteTag cs ∧
      ((∀ c ∈ cs, isCompleteTag c = false) →
        (runSyncFrom kw st cs).emissions = st.emitted) ∧
      (runSyncFrom kw st cs).aborted = false := by
  intro cs
  induction cs with
  | nil =>
      intro st _
      exact ⟨by simp [runSyncFrom], fun _ => rfl, rfl⟩
  | cons c cs ih =>
      intro st hwf
      have hc := hwf c (List.mem_cons_self c cs)
      obtain ⟨e, he⟩ := Option.isSome_iff_exists.mp hc
      obtain ⟨st1, y, d, hstep, hseed, hemit⟩ := syncStep_emitted_wf kw st c e m hm he
      obtain ⟨ihc, ihe, iha⟩ := ih st1 (fun x hx => hwf x (List.mem_cons_of_mem c hx))
      simp only [runSyncFrom, hstep]
      refine ⟨?_, ?_, iha⟩
      · rw [ihc, hemit, List.countP_append, List.countP_cons]
        by_cases ht : e.event_type = "complete"
        · have h1 : isCompleteTag c = true := by simp [isCompleteTag, he, ht]
          simp [ht, h1, List.countP_cons, List.countP_nil, isLLM] <;> omega
        · have h1 : isCompleteTag c = false := by simp [isCompleteTag, he, ht]
          simp [ht, h1, List.countP_nil] <;> omega
      · intro hnone
        have h1 : isCompleteTag c = false := hnone c (List.mem_cons_self c cs)
        have ht : ¬ e.event_type = "complete" := by
          simpa [isCompleteTag, he] using h1
        rw [ihe (fun x hx => hnone x (List.mem_cons_of_mem c hx)), hemit]
        simp [ht]

/-! Per-step and run lemmas about the asynchronous agent handler. -/

/-- The `if llm_event.completion:` / `else` pair on lines 88-91 grows the
accumulated completion by the delta in both cases, because the falsy
values (`None` and `""`) both stand for the empty accumulated string. -/
lemma truthy_grow (comp : Option String) (d : String) :
    (if truthy comp then some (comp.getD "" ++ d) else some d) =
      some (comp.getD "" ++ d) := by
  rcases comp with _ | s
  · simp [truthy, String.empty_append]
  · by_cases hs : s = "" <;> simp [truthy, hs, String.empty_append]

/-- What one `handle_stream_agent` `try` body does to the accumulated
state, for a chunk whose `event` is present: only a
`step_progress`/`inference` fragment changes the completion (appending
its text delta), only a `turn_complete` fragment records an event (the
finalized `LLMEvent`), and the seeding flag is untouched. -/
lemma agentTryBody_spec (kw : SyncKwargs) (md : Option String)
    (st : AgentState) (c : AgentChunk) (e : AgentEvent)
    (he : c.event = some e) :
    (agentTryBody kw md st c).completion =
      (if e.payload.event_type = "step_progress" ∧ e.payload.step_type = "inference"
       then some (st.completion.getD "" ++ e.payload.text_delta_model_response)
       else st.completion) ∧
    (agentTryBody kw md st c).emitted =
      (if e.payload.event_type = "turn_complete"
       then st.emitted ++
          [Emission.llm
            { model := md.getD "Unable to identify model",
              prompt := normalizeMessages kw.messages,
              completion := st.completion }]
       else st.emitted) ∧
    (agentTryBody kw md st c).seeded = st.seeded := by
  obtain ⟨⟨t, s, d⟩⟩ := e
  obtain ⟨sd, comp, em⟩ := st
  by_cases h1 : t = "step_start" <;> by_cases h2 : t = "turn_start" <;>
    by_cases h3 : t = "step_progress" <;> by_cases h4 : t = "step_complete" <;>
    by_cases h5 : t = "turn_complete" <;> by_cases h6 : s = "inference" <;>
    rcases comp with _ | sv <;>
    first
      | (by_cases h7 : sv = "" <;> simp_all [agentTryBody, truthy, String.empty_append])
      | simp_all [agentTryBody, truthy, String.empty_append]

/-- A chunk whose `event` is missing, handled after seeding: the
`AttributeError` at line 76 is caught and one `ErrorEvent` recorded. -/
lemma agentTryBody_missing_event (kw : SyncKwargs) (md : Option String)
    (st : AgentState) (c : AgentChunk) (hc : c.event = none) :
    agentTryBody kw md st c = { st with emitted := st.emitted ++ [Emission.error] } := by
  simp [agentTryBody, hc]

/-- A well-formed chunk never aborts the agent iterator, whether or not
the record is already seeded, and the handler's effect on completion and
emissions is the `agentTryBody_spec` one. -/
lemma agentStep_wf (kw : SyncKwargs) (md : Option String)
    (st : AgentState) (c : AgentChunk) (e : AgentEvent)
    (he : c.event = some e) :
    ∃ st1, agentStep kw md st c = some st1 ∧ st1.seeded = true ∧
      st1.completion =
        (if e.payload.event_type = "step_progress" ∧ e.payload.step_type = "inference"
         then some (st.completion.getD "" ++ e.payload.text_delta_model_response)
         else st.completion) ∧
      st1.emitted =
        (if e.payload.event_type = "turn_complete"
         then st.emitted ++
            [Emission.llm
              { model := md.getD "Unable to identify model",
                prompt := normalizeMessages kw.messages,
                completion := st.completion }]
         else st.emitted) := by
  by_cases hs : st.seeded = true
  · obtain ⟨h1, h2, h3⟩ := agentTryBody_spec kw md st c e he
    refine ⟨agentTryBody kw md st c, by simp [agentStep, hs], ?_, h1, h2⟩
    rw [h3, hs]
  · have hs0 : st.seeded = false := by simpa using hs
    obtain ⟨h1, h2, h3⟩ :=
      agentTryBody_spec kw md { st with seeded := true } c e he
    refine ⟨agentTryBody kw md { st with seeded := true } c,
      by simp [agentStep, hs0, he], ?_, h1, h2⟩
    rw [h3]

/-- Run-level behavior of the agent stream over well-formed chunks: the
iterator never aborts, yields every chunk unchanged in order, the final
accumulated completion is the concatenation of the inference-progress
deltas in delivery order, the number of recorded `LLMEvent`s equals the
number of `turn_complete` chunks, and while no `turn_complete` chunk
arrives nothing at all is recorded. -/
lemma runAgentFrom_spec (kw : SyncKwargs) (md : Option String) :
    ∀ (cs : List AgentChunk) (st : AgentState),
      (∀ c ∈ cs, c.event.isSome = true) →
      (runAgentFrom kw md st cs).aborted = false ∧
      (runAgentFrom kw md st cs).yielded = cs ∧
      (runAgentFrom kw md st cs).final.completion.getD "" =
        st.completion.getD "" ++ inferenceConcat cs ∧
      (runAgentFrom kw md st cs).emissions.countP isLLM =
        st.emitted.countP isLLM + List.countP isTurnCompleteTag cs ∧
      ((∀ c ∈ cs, isTurnCompleteTag c = false) →
        (runAgentFrom kw md st cs).emissions = st.emitted) := by
  intro cs
  induction cs with
  | nil =>
      intro st _
      exact ⟨rfl, rfl, by simp [runAgentFrom, inferenceConcat, String.append_empty],
        by simp [runAgentFrom], fun _ => rfl⟩
  | cons c cs ih =>
      intro st hwf
      obtain ⟨e, he⟩ := Option.isSome_iff_exists.mp (hwf c (List.mem_cons_self c cs))
      obtain ⟨st1, hstep, hseed, hcomp, hemit⟩ := agentStep_wf kw md st c e he
      obtain ⟨iha, ihy, ihcomp, ihcount, ihe⟩ :=
        ih st1 (fun x hx => hwf x (List.mem_cons_of_mem c hx))
      simp only [runAgentFrom, hstep]
      refine ⟨iha, by simp [ihy], ?_, ?_, ?_⟩
      · rw [ihcomp, hcomp]
        by_cases hi : e.payload.event_type = "step_progress" ∧ e.payload.step_type = "inference"
        · simp [hi, inferenceConcat, he, String.append_assoc]
        · simp only [hi, if_false]
          simp [inferenceConcat, he, hi, String.empty_append]
      · rw [ihcount, hemit, List.countP_cons]
        by_cases ht : e.payload.event_type = "turn_complete"
        · have h1 : isTurnCompleteTag c = true := by simp [isTurnCompleteTag, he, ht]
          simp [ht, h1, List.countP_append, List.countP_cons, List.countP_nil, isLLM] <;> omega
        · have h1 : isTurnCompleteTag c = false := by simp [isTurnCompleteTag, he, ht]
          simp [ht, h1]
      · intro hnone
        have h1 : isTurnCompleteTag c = false := hnone c (List.mem_cons_self c cs)
        have ht : ¬ e.payload.event_type = "turn_complete" := by
          simpa [isTurnCompleteTag, he] using h1
        rw [ihe (fun x hx => hnone x (List.mem_cons_of_mem c hx)), hemit]
        simp [ht]

/-- `agentTryBody` never changes the `seeded` flag, whether or not the
chunk's `event` is present. -/
lemma agentTryBody_seeded (kw : SyncKwargs) (md : Option String)
    (st : AgentState) (c : AgentChunk) :
    (agentTryBody kw md st c).seeded = st.seeded := by
  rcases hc : c.event with _ | e
  · rw [agentTryBody_missing_event kw md st c hc]
  · exact (agentTryBody_spec kw md st c e hc).2.2

/-- Once the agent record is seeded, handling a chunk never raises out
of the async generator (the remaining accesses of
`handle_stream_agent` are inside the `try`). -/
lemma agentStep_seeded_total (kw : SyncKwargs) (md : Option String)
    (st : AgentState) (c : AgentChunk) (hs : st.seeded = true) :
    agentStep kw md st c = some (agentTryBody kw md st c) := by
  simp [agentStep, hs]

/-- After a successful seeding step, the async wrapping generator never
aborts: every remaining chunk — malformed ones included — is handled
(possibly recording an `ErrorEvent`) and then yielded unchanged. -/
lemma runAgentFrom_seeded_no_abort (kw : SyncKwargs) (md : Option String) :
    ∀ (cs : List AgentChunk) (st : AgentState), st.seeded = true →
      (runAgentFrom kw md st cs).aborted = false ∧
      (runAgentFrom kw md st cs).yielded = cs := by
  intro cs
  induction cs with
  | nil => intro st _; exact ⟨rfl, rfl⟩
  | cons c cs ih =>
      intro st hs
      have hstep := agentStep_seeded_total kw md st c hs
      have hseed : (agentTryBody kw md st c).seeded = true := by
        rw [agentTryBody_seeded, hs]
      obtain ⟨ha, hy⟩ := ih (agentTryBody kw md st c) hseed
      simp only [runAgentFrom, hstep]
      exact ⟨ha, by simp [hy]⟩

/-- C3: in `handle_stream_agent`, only a fragment whose payload
`event_type` is `"step_progress"` with `step_type` `"inference"` changes
the accumulated completion (appending its text delta); every other phase
tag leaves the completion untouched; only a `"turn_complete"` fragment
records the finalized event; and over a whole well-formed stream the
accumulated completion is the concatenation of the inference deltas in
delivery order. -/
theorem c3_agent_inference_only (kw : SyncKwargs) (md : Option String)
    (st : AgentState) (c : AgentChunk) (e : AgentEvent)
    (he : c.event = some e) (cs : List AgentChunk)
    (hwf : ∀ x ∈ cs, (x.event).isSome = true) :
    (∃ st1, agentStep kw md st c = some st1 ∧
      st1.completion =
        (if e.payload.event_type = "step_progress" ∧ e.payload.step_type = "inference"
         then some (st.completion.getD "" ++ e.payload.text_delta_model_response)
         else st.completion) ∧
      st1.emitted =
        (if e.payload.event_type = "turn_complete"
         then st.emitted ++
            [Emission.llm
              { model := md.getD "Unable to identify model",
                prompt := normalizeMessages kw.messages,
                completion := st.completion }]
         else st.emitted)) ∧
    (runAgent kw md cs).final.completion.getD "" = inferenceConcat cs := by
  constructor
  · obtain ⟨st1, hstep, _, hcomp, hemit⟩ := agentStep_wf kw md st c e he
    exact ⟨st1, hstep, hcomp, hemit⟩
  · have h := (runAgentFrom_spec kw md cs initAgentState hwf).2.2.1
    simpa [runAgent, initAgentState, String.empty_append] using h

/-- C3 witness: the spec's scenario — `turn_start`, two
`step_progress`/`inference` fragments with deltas `"x"`, `"y"`, then
`turn_complete` — accumulates completion `"xy"`, and the inference step
on the `"x"` fragment appends exactly its delta. -/
theorem c3_agent_inference_only_witness :
    (∃ st1, agentStep exampleKwargs (some "mA") initAgentState
        (agentChunk "step_progress" "inference" "x") = some st1 ∧
      st1.completion =
        (if ("step_progress" : String) = "step_progress" ∧ ("inference" : String) = "inference"
         then some ((initAgentState.completion.getD "") ++ "x")
         else initAgentState.completion) ∧
      st1.emitted =
        (if ("step_progress" : String) = "turn_complete"
         then initAgentState.emitted ++
            [Emission.llm
              { model := (some "mA").getD "Unable to identify model",
                prompt := normalizeMessages exampleKwargs.messages,
                completion := initAgentState.completion }]
         else initAgentState.emitted)) ∧
    (runAgent exampleKwargs (some "mA")
      [agentChunk "turn_start" "" "", agentChunk "step_progress" "inference" "x",
       agentChunk "step_progress" "inference" "y",
       agentChunk "turn_complete" "" ""]).final.completion.getD "" =
      inferenceConcat
        [agentChunk "turn_start" "" "", agentChunk "step_progress" "inference" "x",
         agentChunk "step_progress" "inference" "y", agentChunk "turn_complete" "" ""] :=
  c3_agent_inference_only exampleKwargs (some "mA") initAgentState
    (agentChunk "step_progress" "inference" "x")
    { payload := { event_type := "step_progress", step_type := "inference",
                   text_delta_model_response := "x" } }
    rfl
    [agentChunk "turn_start" "" "", agentChunk "step_progress" "inference" "x",
     agentChunk "step_progress" "inference" "y", agentChunk "turn_complete" "" ""]
    (by decide)

/-- C5 counterexample: in BOTH stream handlers, a FIRST fragment lacking
the `event` attribute raises in the unguarded seeding access (lines
31-32 of `handle_stream_chunk`, lines 72-73 of `handle_stream_agent`,
before the `try`): no error event is recorded, the fragment is not
yielded, the following fragment is never processed, and the exception
escapes the iterator. -/
theorem c5_counterexample :
    (runSync exampleKwargs [{ event := none }, chunkP "b"]).aborted = true ∧
    (runSync exampleKwargs [{ event := none }, chunkP "b"]).emissions = [] ∧
    (runSync exampleKwargs [{ event := none }, chunkP "b"]).yielded = [] ∧
    (runAgent exampleKwargs (some "mA")
      [({ event := none } : AgentChunk),
       agentChunk "step_progress" "inference" "x"]).aborted = true ∧
    (runAgent exampleKwargs (some "mA")
      [({ event := none } : AgentChunk),
       agentChunk "step_progress" "inference" "x"]).emissions = [] ∧
    (runAgent exampleKwargs (some "mA")
      [({ event := none } : AgentChunk),
       agentChunk "step_progress" "inference" "x"]).yielded = [] := by
  exact ⟨rfl, rfl, rfl, rfl, rfl, rfl⟩

/-- C5 amended, for BOTH stream handlers: a shape fault raised inside
the handler's `try` block — here, a non-first fragment whose `event`
attribute is missing — is caught per-fragment: exactly one `ErrorEvent`
is recorded, the fragment is still yielded, and the iterator continues;
moreover once the first fragment's seeding access has succeeded, the
iterator never aborts and yields every fragment.  (Only the unguarded
seeding access of the first fragment — lines 31-32 in
`handle_stream_chunk`, lines 72-73 in `handle_stream_agent` — can
propagate, per the counterexample.) -/
theorem c5_guarded_fault_handling (kw : SyncKwargs) (md : Option String)
    (st : SyncState) (c : StreamChunk) (c0 : StreamChunk) (e0 : ChunkEvent)
    (cs : List StreamChunk)
    (ast : AgentState) (ac : AgentChunk) (a0 : AgentChunk)
    (as0 : List AgentChunk)
    (hs : st.seeded = true) (hc : c.event = none) (h0 : c0.event = some e0)
    (has : ast.seeded = true) (hac : ac.event = none)
    (ha0 : (a0.event).isSome = true) :
    syncStep kw st c =
      some ({ st with emitted := st.emitted ++ [Emission.error] }, none) ∧
    (runSync kw (c0 :: cs)).aborted = false ∧
    (runSync kw (c0 :: cs)).yielded.length = cs.length + 1 ∧
    agentStep kw md ast ac =
      some { ast with emitted := ast.emitted ++ [Emission.error] } ∧
    (runAgent kw md (a0 :: as0)).aborted = false ∧
    (runAgent kw md (a0 :: as0)).yielded = a0 :: as0 := by
  obtain ⟨ea, hea⟩ := Option.isSome_iff_exists.mp ha0
  have hastep : agentStep kw md initAgentState a0 =
      some (agentTryBody kw md { initAgentState with seeded := true } a0) := by
    simp [agentStep, initAgentState, hea]
  have haseed : (agentTryBody kw md { initAgentState with seeded := true } a0).seeded = true := by
    rw [agentTryBody_seeded]
  obtain ⟨haa, hay⟩ := runAgentFrom_seeded_no_abort kw md as0 _ haseed
  have hagentrun : (runAgent kw md (a0 :: as0)).aborted = false ∧
      (runAgent kw md (a0 :: as0)).yielded = a0 :: as0 := by
    simp only [runAgent, runAgentFrom, hastep]
    exact ⟨haa, by simp [hay]⟩
  have hsyncrun : (runSync kw (c0 :: cs)).aborted = false ∧
      (runSync kw (c0 :: cs)).yielded.length = cs.length + 1 := by
    have hstep : syncStep kw initSyncState c0 =
        some (syncTryBody kw
          { initSyncState with seeded := true, returnsDelta := e0.delta } c0 true) := by
      simp [syncStep, initSyncState, h0]
    rcases hp : syncTryBody kw
        { initSyncState with seeded := true, returnsDelta := e0.delta } c0 true with ⟨st1, y⟩
    have hseed1 : st1.seeded = true := by
      have h2 := syncTryBody_seeded kw
        { initSyncState with seeded := true, returnsDelta := e0.delta } c0 true
      rw [hp] at h2
      simpa using h2
    obtain ⟨ha, hl⟩ := runSyncFrom_seeded_no_abort kw cs st1 hseed1
    rw [hp] at hstep
    simp only [runSync, runSyncFrom, hstep]
    exact ⟨ha, by simp [hl]⟩
  refine ⟨?_, hsyncrun.1, hsyncrun.2, ?_, hagentrun.1, hagentrun.2⟩
  · rw [syncStep_seeded_total kw st c hs, syncTryBody_missing_event kw st c hc]
  · rw [agentStep_seeded_total kw md ast ac has,
      agentTryBody_missing_event kw md ast ac hac]

/-- C5 witness: for both handlers — from a seeded state, a fragment
lacking `event` records one error event and processing continues, and a
stream seeded by a well-formed first fragment then hitting such a
fragment never aborts and (agent path) yields every fragment. -/
theorem c5_guarded_fault_handling_witness :
    syncStep exampleKwargs
        { seeded := true, returnsDelta := "a", completion := none, emitted := [] }
        { event := none } =
      some ({ seeded := true, returnsDelta := "a", completion := none,
              emitted := [Emission.error] }, none) ∧
    (runSync exampleKwargs [chunkP "a", { event := none }]).aborted = false ∧
    agentStep exampleKwargs (some "mA")
        { seeded := true, completion := none, emitted := [] } { event := none } =
      some { seeded := true, completion := none, emitted := [Emission.error] } ∧
    (runAgent exampleKwargs (some "mA")
      [agentChunk "turn_start" "" "", ({ event := none } : AgentChunk)]).aborted = false ∧
    (runAgent exampleKwargs (some "mA")
      [agentChunk "turn_start" "" "", ({ event := none } : AgentChunk)]).yielded =
      [agentChunk "turn_start" "" "", { event := none }] :=
  ⟨(c5_guarded_fault_handling exampleKwargs (some "mA")
      { seeded := true, returnsDelta := "a", completion := none, emitted := [] }
      { event := none } (chunkP "a") { delta := "a", event_type := "progress" }
      [{ event := none }]
      { seeded := true, completion := none, emitted := [] } { event := none }
      (agentChunk "turn_start" "" "") [{ event := none }]
      rfl rfl rfl rfl rfl rfl).1,
   (c5_guarded_fault_handling exampleKwargs (some "mA")
      { seeded := true, returnsDelta := "a", completion := none, emitted := [] }
      { event := none } (chunkP "a") { delta := "a", event_type := "progress" }
      [{ event := none }]
      { seeded := true, completion := none, emitted := [] } { event := none }
      (agentChunk "turn_start" "" "") [{ event := none }]
      rfl rfl rfl rfl rfl rfl).2.1,
   (c5_guarded_fault_handling exampleKwargs (some "mA")
      { seeded := true, returnsDelta := "a", completion := none, emitted := [] }
      { event := none } (chunkP "a") { delta := "a", event_type := "progress" }
      [{ event := none }]
      { seeded := true, completion := none, emitted := [] } { event := none }
      (agentChunk "turn_start" "" "") [{ event := none }]
      rfl rfl rfl rfl rfl rfl).2.2.2.1,
   (c5_guarded_fault_handling exampleKwargs (some "mA")
      { seeded := true, returnsDelta := "a", completion := none, emitted := [] }
      { event := none } (chunkP "a") { delta := "a", event_type := "progress" }
      [{ event := none }]
      { seeded := true, completion := none, emitted := [] } { event := none }
      (agentChunk "turn_start" "" "") [{ event := none }]
      rfl rfl rfl rfl rfl rfl).2.2.2.2.1,
   (c5_guarded_fault_handling exampleKwargs (some "mA")
      { seeded := true, returnsDelta := "a", completion := none, emitted := [] }
      { event := none } (chunkP "a") { delta := "a", event_type := "progress" }
      [{ event := none }]
      { seeded := true, completion := none, emitted := [] } { event := none }
      (agentChunk "turn_start" "" "") [{ event := none }]
      rfl rfl rfl rfl rfl rfl).2.2.2.2.2⟩

/-- C6: the wrapping iterator does NOT yield every fragment unchanged:
`llm_event.returns` aliases the first chunk's `event` object, and line 44
mutates its `delta` in place before the chunk is yielded, so the caller
receives the first fragment with its delta doubled (`"aa"` instead of
`"a"`). -/
theorem c6_first_fragment_mutated :
    (runSync exampleKwargs [chunkP "a", chunkC "b"]).yielded =
      [some { delta := "aa", event_type := "progress" },
       some { delta := "b", event_type := "complete" }] ∧
    ¬ ((runSync exampleKwargs [chunkP "a", chunkC "b"]).yielded =
        [(chunkP "a").event, (chunkC "b").event]) := by
  exact ⟨rfl, by decide⟩

/-- C7 counterexample: a stream with TWO `"complete"`-tagged fragments
makes `handle_stream_chunk` call `_safe_record` twice — two finalized
`LLMEvent`s for one logical call, refuting the at-most-one-finalization
claim. -/
theorem c7_counterexample :
    (runSync exampleKwargs [chunkC "a", chunkC "b"]).emissions =
      [Emission.llm
        { model := "m1", prompt := [{ content := "hi", role := "user" }],
          completion := some "a" },
       Emission.llm
        { model := "m1", prompt := [{ content := "hi", role := "user" }],
          completion := some "aa" }] ∧
    ¬ ((runSync exampleKwargs [chunkC "a", chunkC "b"]).emissions.countP isLLM ≤ 1) := by
  exact ⟨rfl, by decide⟩

/-- C7 amended: the handlers have no finalized-state guard — each
terminal-tagged fragment triggers one emission at the moment it is
processed, so the number of finalized `LLMEvent`s handed to the recorder
equals the number of terminal-tagged fragments delivered (and is one,
immediately, for a buffered response with model metadata).  In
particular, for every call whose fragment sequence contains at most one
terminal-tagged fragment, at most one finalized event is recorded. -/
theorem c7_terminal_emission_count (kw : SyncKwargs) (m : String)
    (cs : List StreamChunk) (md : Option String) (acs : List AgentChunk)
    (resp : BufferedResponse)
    (hm : kw.model_id = some m)
    (hwf : ∀ c ∈ cs, c.event.isSome = true)
    (hawf : ∀ c ∈ acs, c.event.isSome = true) :
    (runSync kw cs).emissions.countP isLLM = List.countP isCompleteTag cs ∧
    (List.countP isCompleteTag cs ≤ 1 →
      (runSync kw cs).emissions.countP isLLM ≤ 1) ∧
    (runAgent kw md acs).emissions.countP isLLM = List.countP isTurnCompleteTag acs ∧
    (List.countP isTurnCompleteTag acs ≤ 1 →
      (runAgent kw md acs).emissions.countP isLLM ≤ 1) ∧
    (handleBuffered kw (some m) resp).1.countP isLLM = 1 := by
  have hsync := (runSyncFrom_llm_count kw m hm cs initSyncState hwf).1
  have hagent := (runAgentFrom_spec kw md acs initAgentState hawf).2.2.2.1
  have h1 : (runSync kw cs).emissions.countP isLLM = List.countP isCompleteTag cs := by
    simpa [runSync, initSyncState, List.countP_nil] using hsync
  have h2 : (runAgent kw md acs).emissions.countP isLLM =
      List.countP isTurnCompleteTag acs := by
    simpa [runAgent, initAgentState, List.countP_nil] using hagent
  refine ⟨h1, fun h => by rw [h1]; exact h, h2, fun h => by rw [h2]; exact h, ?_⟩
  simp [handleBuffered, isLLM, List.countP_cons, List.countP_nil]

/-- C7 amended witness: a two-fragment stream whose second fragment is
terminal records exactly one event, and a buffered response with model
metadata records exactly one event. -/
theorem c7_terminal_emission_count_witness :
    (runSync exampleKwargs [chunkP "a", chunkC "b"]).emissions.countP isLLM =
      List.countP isCompleteTag [chunkP "a", chunkC "b"] ∧
    (handleBuffered exampleKwargs (some "m1") exampleResponse).1.countP isLLM = 1 :=
  ⟨(c7_terminal_emission_count exampleKwargs "m1" [chunkP "a", chunkC "b"] none
      [agentChunk "turn_complete" "" ""] exampleResponse rfl (by decide) (by decide)).1,
   (c7_terminal_emission_count exampleKwargs "m1" [chunkP "a", chunkC "b"] none
      [agentChunk "turn_complete" "" ""] exampleResponse rfl (by decide) (by decide)).2.2.2.2⟩

/-- C8: a well-formed fragment sequence that never carries its terminal
tag (`"complete"` for the sync stream, `"turn_complete"` for the agent
stream) records nothing at all — no `LLMEvent`, no `ErrorEvent` — and
raises nothing: the call record is silently dropped. -/
theorem c8_no_terminal_no_event (kw : SyncKwargs) (m : String)
    (cs : List StreamChunk) (md : Option String) (acs : List AgentChunk)
    (hm : kw.model_id = some m)
    (hwf : ∀ c ∈ cs, c.event.isSome = true)
    (hnc : ∀ c ∈ cs, isCompleteTag c = false)
    (hawf : ∀ c ∈ acs, c.event.isSome = true)
    (hnt : ∀ c ∈ acs, isTurnCompleteTag c = false) :
    (runSync kw cs).emissions = [] ∧ (runSync kw cs).aborted = false ∧
    (runAgent kw md acs).emissions = [] ∧ (runAgent kw md acs).aborted = false := by
  obtain ⟨h1, h2, h3⟩ := runSyncFrom_llm_count kw m hm cs initSyncState hwf
  obtain ⟨a1, a2, a3, a4, a5⟩ := runAgentFrom_spec kw md acs initAgentState hawf
  exact ⟨h2 hnc, h3, a5 hnt, a1⟩

/-- C8 witness: two non-terminal sync fragments and one non-terminal
agent fragment leave both emission logs empty and abort nothing. -/
theorem c8_no_terminal_no_event_witness :
    (runSync exampleKwargs [chunkP "a", chunkP "b"]).emissions = [] ∧
    (runAgent exampleKwargs none
      [agentChunk "step_progress" "inference" "x"]).emissions = [] :=
  ⟨(c8_no_terminal_no_event exampleKwargs "m1" [chunkP "a", chunkP "b"] none
      [agentChunk "step_progress" "inference" "x"] rfl (by decide) (by decide)
      (by decide) (by decide)).1,
   (c8_no_terminal_no_event exampleKwargs "m1" [chunkP "a", chunkP "b"] none
      [agentChunk "step_progress" "inference" "x"] rfl (by decide) (by decide)
      (by decide) (by decide)).2.2.1⟩

/-- C2: on the spec's buffered scenario reached through the patched
chat-completion entry point, the code does NOT emit the claimed event:
`patched_function` passes no `metadata`, so `handle_response` runs with
`metadata = {}`, the lookup `metadata["model_id"]` on line 133 raises
`KeyError`, exactly one `ErrorEvent` (and zero `LLMEvent`s) is recorded,
and a formatted string is returned instead of the response.  The third
conjunct shows the claimed event IS built whenever metadata carries the
model id, which the entry point never supplies. -/
theorem c2_buffered_entry_keyerror :
    patchedChatCompletionBuffered exampleKwargs exampleResponse =
      ([Emission.error], HandleReturn.formatted exampleResponse) ∧
    (patchedChatCompletionBuffered exampleKwargs exampleResponse).1.countP isLLM = 0 ∧
    handleBuffered exampleKwargs (some "m1") exampleResponse =
      ([Emission.llm
          { model := "m1", prompt := [{ content := "hi", role := "user" }],
            completion := some "hello" }],
       HandleReturn.raw exampleResponse) := by
  exact ⟨rfl, rfl, rfl⟩

/-- C4: when the buffered path's top-level handler catches a fault
(here the default-metadata `KeyError`), `handle_response` does NOT return
the original raw result: line 144 rebinds `response` to
`pprint.pformat(response)` and line 151 returns that string. -/
theorem c4_top_level_fault_formats_response :
    (handleBuffered exampleKwargs none exampleResponse).2 =
      HandleReturn.formatted exampleResponse ∧
    ¬ (HandleReturn.formatted exampleResponse = HandleReturn.raw exampleResponse) := by
  exact ⟨rfl, by decide⟩

/-- C9: `override` followed by `undo_override` is NOT a round-trip:
`undo_override` tests `self.original_complete` / `self.original_create_turn`,
the class attributes that are never assigned (the saved references went
into module-level globals), so both guards see `None` and both entry
points remain patched. -/
theorem c9_undo_override_noop :
    undoOverride (overrideAll initProcessState) = overrideAll initProcessState ∧
    (undoOverride (overrideAll initProcessState)).chat_completion =
      Func.patchedChatCompletion ∧
    (undoOverride (overrideAll initProcessState)).create_turn =
      Func.patchedCreateTurn ∧
    ¬ (Func.patchedChatCompletion = Func.originalChatCompletion) ∧
    ¬ (Func.patchedCreateTurn = Func.originalCreateTurn) := by
  exact ⟨rfl, rfl, rfl, by decide, by decide⟩

/-- C10: the patched wrappers read the `session` keyword, delete it from
the kwargs before invoking the original library function and before the
kwargs become the event's `params`, and leave every other keyword
unchanged. -/
theorem c10_session_stripped (kwargs : Kwargs String) :
    (patchedWrapperKwargs kwargs).libKwargs "session" = none ∧
    (patchedWrapperKwargs kwargs).eventParams "session" = none ∧
    (patchedWrapperKwargs kwargs).sessionArg = kwargs "session" ∧
    ∀ k, ¬ k = "session" →
      (patchedWrapperKwargs kwargs).libKwargs k = kwargs k ∧
      (patchedWrapperKwargs kwargs).eventParams k = kwargs k := by
  refine ⟨by simp [patchedWrapperKwargs, stripSession], by simp [patchedWrapperKwargs, stripSession],
    rfl, ?_⟩
  intro k hk
  constructor <;> simp [patchedWrapperKwargs, stripSession, hk]

/-- Fixture: a kwargs dictionary holding a session and a model id. -/
def exampleDict : Kwargs String :=
  fun k => if k = "session" then some "sess" else if k = "model_id" then some "m1" else none

/-- C10 witness: on a concrete kwargs dictionary, the library never sees
the session key and the model id passes through unchanged. -/
theorem c10_session_stripped_witness :
    (patchedWrapperKwargs exampleDict).libKwargs "session" = none ∧
    (patchedWrapperKwargs exampleDict).libKwargs "model_id" = exampleDict "model_id" :=
  ⟨(c10_session_stripped exampleDict).1,
   ((c10_session_stripped exampleDict).2.2.2 "model_id" (by decide)).1⟩

end LlamaStack
